import Mathlib

/-!
Verification of the macFUSE loopback filesystem translation layer
(`LoopbackFS-C/loopback/loopback.c` and `LoopbackFS-libfuse3-C/main.c`).

The development shallowly embeds the translation core:
* the directory enumerator (`loopback_opendir` / `loopback_readdir`),
* the xattr namespace mapper (`loopback_setxattr` / `getxattr` / `listxattr`),
* the combined attribute setter (`loopback_setattr` / `loopback_setattr_x`),
* the volume statistics normalizer (`loopback_statfs`),
* the attribute translator (`getattr` / `getattrat`),
* the space preallocator (`loopback_fallocate`).

Host primitives (the POSIX calls the shim forwards to) are modelled as
explicit oracles: a directory is a list of entries indexed 0..n-1, an xattr
store is an association list, and the attribute/statfs/fallocate hosts are
functions returning either success or an errno.
-/

/-- The per-open directory cursor `struct loopback_dirp`:
`pos` is the host `DIR` stream position (the index of the next entry
`readdir` would return, i.e. what `telldir` reports), `entry` is the
buffered not-yet-delivered entry (`d->entry`, identified by its index),
and `offset` is `d->offset`, the last offset recorded for the caller. -/
structure DirSt where
  pos : Nat
  entry : Option Nat
  offset : Nat
  deriving DecidableEq

/-- The state `loopback_opendir` creates: fresh stream, no buffered entry,
`d->offset = 0`. -/
def opendirSt : DirSt := ⟨0, none, 0⟩

/-- The `while (1)` loop of `loopback_readdir` over a host directory with
`n` entries.  The consumer callback (`filler`) is modelled by a budget `k`:
it accepts the first `k` entries offered and rejects the next one (the
kernel's filler rejects every entry once its buffer is full, and the loop
breaks at the first rejection, so only the count of accepted entries
matters).  Each iteration takes the buffered entry if present, otherwise
reads the next host entry (advancing `pos`); end-of-stream breaks the
loop.  The offset handed to the callback is `telldir(dp) + 1`, i.e.
`pos + 1` at the time of the call.  On acceptance the code clears
`d->entry` and stores the offset in `d->offset`; on rejection it breaks,
leaving `d->entry` and `d->offset` untouched.  Returns the final cursor
state and the list of (entry index, reported offset) pairs emitted. -/
def readdirLoop (n : Nat) : Nat → DirSt → DirSt × List (Nat × Nat)
  | 0, ⟨p, some i, off⟩ => (⟨p, some i, off⟩, [])
  | 0, ⟨p, none, off⟩ =>
    if p < n then (⟨p + 1, some p, off⟩, []) else (⟨p, none, off⟩, [])
  | k + 1, ⟨p, some i, _off⟩ =>
    let r := readdirLoop n k ⟨p, none, p + 1⟩
    (r.1, (i, p + 1) :: r.2)
  | k + 1, ⟨p, none, off⟩ =>
    if p < n then
      let r := readdirLoop n k ⟨p + 1, none, p + 2⟩
      (r.1, (p, p + 2) :: r.2)
    else (⟨p, none, off⟩, [])

/-- The repositioning prologue of `loopback_readdir`: offset `0` rewinds
the stream and resets the cursor record; any other offset differing from
`d->offset` seeks the host cursor to `offset - 1` (undoing the `+1`
added when the offset was produced from `telldir`) and clears the
buffered entry; otherwise the state is left alone. -/
def readdirSeek (offset : Nat) (st : DirSt) : DirSt :=
  if offset = 0 then ⟨0, none, 0⟩
  else if offset ≠ st.offset then ⟨offset - 1, none, offset⟩
  else st

/-- One `loopback_readdir` call: reposition, then run the fill loop. -/
def loopback_readdir (n : Nat) (offset : Nat) (k : Nat) (st : DirSt) :
    DirSt × List (Nat × Nat) :=
  readdirLoop n k (readdirSeek offset st)

/-- The resume offset the FUSE kernel uses for the next call: the offset
that was attached to the last entry it accepted, unchanged if the call
emitted nothing. -/
def lastOffAfter (emitted : List (Nat × Nat)) (lastOff : Nat) : Nat :=
  match emitted.getLast? with
  | some e => e.2
  | none => lastOff

/-- A split traversal: a sequence of `loopback_readdir` calls with the
given filler budgets, each resuming from the offset returned with the
last emitted entry so far (first call resumes from `lastOff`). -/
def runTraversal (n : Nat) : List Nat → DirSt → Nat → List (Nat × Nat)
  | [], _, _ => []
  | k :: ks, st, lastOff =>
    let r := loopback_readdir n lastOff k st
    r.2 ++ runTraversal n ks r.1 (lastOffAfter r.2 lastOff)

/-- The cursor state `readdirLoop` reaches when started from a clean
(no buffered entry) state at position `p` with budget `k`: either the
budget runs out with the next entry read but rejected (it stays
buffered, `d->offset` keeps the last accepted entry's offset), or the
stream is exhausted. -/
def cleanFinal (n p k off : Nat) : DirSt :=
  if p + k < n then
    ⟨p + k + 1, some (p + k), if k = 0 then off else p + k + 1⟩
  else if p < n then ⟨n, none, n + 1⟩
  else ⟨p, none, off⟩

/-- Canonical cursor state after the first `m` of `n` entries have been
accepted by a traversal that always resumes from the last emitted
offset (for `1 ≤ m`): either the next entry sits buffered after a
rejection, or the stream is exhausted. -/
def travSt (n m : Nat) : DirSt :=
  if m < n then ⟨m + 1, some m, m + 1⟩ else ⟨n, none, n + 1⟩

/-- Invariant tying the emitted-entry count `m`, the cursor state and the
kernel's resume offset together across a split traversal. -/
def TravInv (n m : Nat) (st : DirSt) (lastOff : Nat) : Prop :=
  (m = 0 ∧ lastOff = 0) ∨ (1 ≤ m ∧ m ≤ n ∧ lastOff = m + 1 ∧ st = travSt n m)

/-- Xattr names as byte strings (lists of characters), matching the C
code's byte-level prefix tests and rewrites. -/
abbrev XName := List Char

/-- The reserved vendor prefix `"com.apple."` (10 bytes). -/
def comApple : XName := ['c', 'o', 'm', '.', 'a', 'p', 'p', 'l', 'e', '.']

/-- The name mapping applied by `loopback_setxattr`, `loopback_getxattr`
and `loopback_removexattr` before calling through to the host:
`strncmp(name, "com.apple.", 10) == 0` and, on a match, the substitute
name `"org.apple."` followed by `name + 10`. -/
def mapXattrName (name : XName) : XName :=
  if comApple.isPrefixOf name then
    ['o', 'r', 'g', '.', 'a', 'p', 'p', 'l', 'e', '.'] ++ name.drop 10
  else name

/-- The in-place rewrite `loopback_listxattr` applies to each
NUL-terminated name of the host's listing buffer: if the name begins
with `"com.apple."`, its first three bytes are overwritten with
`o`, `r`, `g`; lengths are unchanged. -/
def listRewriteName (s : XName) : XName :=
  if comApple.isPrefixOf s then ['o', 'r', 'g'] ++ s.drop 3 else s

/-- Host xattr store: an association list from names to byte values, in
listing order.  Host `setxattr` with default flags creates or replaces. -/
abbrev XStore := List (XName × List Nat)

def hostSetxattr : XStore → XName → List Nat → XStore
  | [], n, v => [(n, v)]
  | (m, w) :: rest, n, v =>
    if m = n then (n, v) :: rest else (m, w) :: hostSetxattr rest n v

def hostGetxattr : XStore → XName → Option (List Nat)
  | [], _ => none
  | (m, w) :: rest, n => if m = n then some w else hostGetxattr rest n

/-- Host `listxattr`: the stored names, NUL-separated, in store order. -/
def hostListxattr (s : XStore) : List XName := s.map Prod.fst

/-- `loopback_setxattr`: maps the reserved prefix, stores the value
unchanged under the mapped name. -/
def loopback_setxattr (s : XStore) (name : XName) (value : List Nat) : XStore :=
  hostSetxattr s (mapXattrName name) value

/-- `loopback_getxattr`: maps the reserved prefix, fetches from the host
under the mapped name, value passed through unchanged. -/
def loopback_getxattr (s : XStore) (name : XName) : Option (List Nat) :=
  hostGetxattr s (mapXattrName name)

/-- `loopback_listxattr` (full-size buffer case): the host listing with
each name put through the in-place rewrite loop. -/
def loopback_listxattr (s : XStore) : List XName :=
  (hostListxattr s).map listRewriteName

/-- The attribute name `"com.apple.test"` used as the C1 failing input. -/
def c1name : XName :=
  ['c', 'o', 'm', '.', 'a', 'p', 'p', 'l', 'e', '.', 't', 'e', 's', 't']

/-- The name `"org.apple.test"` the host actually stores (and the listing
actually shows) for the C1 failing input. -/
def c1orgname : XName :=
  ['o', 'r', 'g', '.', 'a', 'p', 'p', 'l', 'e', '.', 't', 'e', 's', 't']

/-- `(uid_t)-1` / `(gid_t)-1`: the unsigned 32-bit sentinel meaning
"leave this id unchanged". -/
def UMAX : Nat := 4294967295

/-- A combined attribute-update request: the `to_set` bitmask of
`loopback_setattr` (libfuse3) resp. the `SETATTR_WANTS_*` bits of
`loopback_setattr_x` (FUSE 2.x), as one presence flag per field, plus
the requested values from the attribute record. -/
structure SetAttrReq where
  modeSet : Bool := false
  mode : Nat := 0
  uidSet : Bool := false
  uid : Nat := 0
  gidSet : Bool := false
  gid : Nat := 0
  sizeSet : Bool := false
  size : Nat := 0
  mtimeSet : Bool := false
  mtime : Nat := 0
  atimeSet : Bool := false
  atime : Nat := 0
  ctimeSet : Bool := false
  ctime : Nat := 0
  crtimeSet : Bool := false
  crtime : Nat := 0
  bkuptimeSet : Bool := false
  bkuptime : Nat := 0
  flagsSet : Bool := false
  flags : Nat := 0
  deriving DecidableEq

/-- The host primitives the combined setter drives (the handle-based and
no-follow path-based variants behave identically at this level). -/
inductive HostCall where
  | chmod (mode : Nat)
  | chown (uid gid : Nat)
  | truncate (size : Nat)
  | utimes (atime mtime : Nat)
  | setchgtime (t : Nat)
  | setcrtime (t : Nat)
  | setbkuptime (t : Nat)
  | chflags (flags : Nat)
  deriving DecidableEq

/-- The local `uid_t uid = -1; if (WANTS_UID) uid = attr->uid;`. -/
def effUid (r : SetAttrReq) : Nat := if r.uidSet then r.uid else UMAX

/-- The local `gid_t gid = -1; if (WANTS_GID) gid = attr->gid;`. -/
def effGid (r : SetAttrReq) : Nat := if r.gidSet then r.gid else UMAX

/-- One guarded field step of the setter: if the field is requested,
issue the host call; on failure return its negated errno immediately
(previously issued calls stay issued — nothing is rolled back),
otherwise continue with `k`.  The second component records the host
calls issued, in order. -/
def attempt (host : HostCall → Option Nat) (cond : Bool) (c : HostCall)
    (k : Unit → Int × List HostCall) : Int × List HostCall :=
  if cond then
    match host c with
    | some e => (-(e : Int), [c])
    | none =>
      let r := k ()
      (r.1, c :: r.2)
  else k ()

/-- `loopback_setattr` of the libfuse3 variant (`main.c`): mode;
ownership (one combined `chown`, skipped when both effective ids are the
`-1` sentinel); size; modify-time paired with access-time (current time
`now` substituted when the access-time was not requested); change-time;
creation-time; backup-time; flags. -/
def loopback_setattr (host : HostCall → Option Nat) (now : Nat) (r : SetAttrReq) :
    Int × List HostCall :=
  attempt host r.modeSet (HostCall.chmod r.mode) fun _ =>
  attempt host (effUid r != UMAX || effGid r != UMAX) (HostCall.chown (effUid r) (effGid r))
    fun _ =>
  attempt host r.sizeSet (HostCall.truncate r.size) fun _ =>
  attempt host r.mtimeSet
    (HostCall.utimes (if r.atimeSet then r.atime else now) r.mtime) fun _ =>
  attempt host r.ctimeSet (HostCall.setchgtime r.ctime) fun _ =>
  attempt host r.crtimeSet (HostCall.setcrtime r.crtime) fun _ =>
  attempt host r.bkuptimeSet (HostCall.setbkuptime r.bkuptime) fun _ =>
  attempt host r.flagsSet (HostCall.chflags r.flags) fun _ =>
  (0, [])

/-- `loopback_setattr_x` / `loopback_fsetattr_x` of the FUSE 2.x variant
(`loopback.c`): identical except that creation-time is applied *before*
change-time. -/
def loopback_setattr_x (host : HostCall → Option Nat) (now : Nat) (r : SetAttrReq) :
    Int × List HostCall :=
  attempt host r.modeSet (HostCall.chmod r.mode) fun _ =>
  attempt host (effUid r != UMAX || effGid r != UMAX) (HostCall.chown (effUid r) (effGid r))
    fun _ =>
  attempt host r.sizeSet (HostCall.truncate r.size) fun _ =>
  attempt host r.mtimeSet
    (HostCall.utimes (if r.atimeSet then r.atime else now) r.mtime) fun _ =>
  attempt host r.crtimeSet (HostCall.setcrtime r.crtime) fun _ =>
  attempt host r.ctimeSet (HostCall.setchgtime r.ctime) fun _ =>
  attempt host r.bkuptimeSet (HostCall.setbkuptime r.bkuptime) fun _ =>
  attempt host r.flagsSet (HostCall.chflags r.flags) fun _ =>
  (0, [])

/-- Reference semantics of a fixed-order setter: attempt the listed host
calls left to right, stop at the first failure returning its negated
errno, report the calls issued (successful ones are not undone). -/
def runCalls (host : HostCall → Option Nat) : List HostCall → Int × List HostCall
  | [] => (0, [])
  | c :: cs =>
    match host c with
    | some e => (-(e : Int), [c])
    | none =>
      let r := runCalls host cs
      (r.1, c :: r.2)

/-- The field order claimed by the specification (and implemented by the
libfuse3 variant): mode; ownership; size; modify/access time;
change-time; creation-time; backup-time; flags. -/
def claimOrderCalls (now : Nat) (r : SetAttrReq) : List HostCall :=
  (if r.modeSet then [HostCall.chmod r.mode] else [])
  ++ ((if effUid r != UMAX || effGid r != UMAX
      then [HostCall.chown (effUid r) (effGid r)] else [])
  ++ ((if r.sizeSet then [HostCall.truncate r.size] else [])
  ++ ((if r.mtimeSet
      then [HostCall.utimes (if r.atimeSet then r.atime else now) r.mtime] else [])
  ++ ((if r.ctimeSet then [HostCall.setchgtime r.ctime] else [])
  ++ ((if r.crtimeSet then [HostCall.setcrtime r.crtime] else [])
  ++ ((if r.bkuptimeSet then [HostCall.setbkuptime r.bkuptime] else [])
  ++ (if r.flagsSet then [HostCall.chflags r.flags] else [])))))))

/-- The field order of the FUSE 2.x variant: as `claimOrderCalls` but
with creation-time before change-time. -/
def fuse2OrderCalls (now : Nat) (r : SetAttrReq) : List HostCall :=
  (if r.modeSet then [HostCall.chmod r.mode] else [])
  ++ ((if effUid r != UMAX || effGid r != UMAX
      then [HostCall.chown (effUid r) (effGid r)] else [])
  ++ ((if r.sizeSet then [HostCall.truncate r.size] else [])
  ++ ((if r.mtimeSet
      then [HostCall.utimes (if r.atimeSet then r.atime else now) r.mtime] else [])
  ++ ((if r.crtimeSet then [HostCall.setcrtime r.crtime] else [])
  ++ ((if r.ctimeSet then [HostCall.setchgtime r.ctime] else [])
  ++ ((if r.bkuptimeSet then [HostCall.setbkuptime r.bkuptime] else [])
  ++ (if r.flagsSet then [HostCall.chflags r.flags] else [])))))))

/-- Request sent in the C3 counterexample: change-time and creation-time
both present. -/
def c3req : SetAttrReq := { ctimeSet := true, ctime := 7, crtimeSet := true, crtime := 9 }

/-- Host for the C3 counterexample: setting the creation-time fails with
errno 5, setting the change-time fails with errno 13, everything else
succeeds. -/
def c3host : HostCall → Option Nat
  | HostCall.setcrtime _ => some 5
  | HostCall.setchgtime _ => some 13
  | _ => none

/-- Request for the C9 witness: only the owner id requested, with the
sentinel value. -/
def c9req : SetAttrReq := { uidSet := true, uid := UMAX }

/-- Host `struct statfs` fields used by `loopback_statfs`: `f_bsize` is
a 32-bit quantity, the block counts are 64-bit. -/
structure StatfsRec where
  bsize : Nat
  blocks : Nat
  bfree : Nat
  bavail : Nat
  deriving DecidableEq

/-- `2 ^ 64`: the modulus of the C `uint64_t` arithmetic rescaling the
block counts. -/
def U64 : Nat := 2 ^ 64

/-- `loopback_statfs` / `loopback_statfs_x`: on host success, rescale
`f_blocks`, `f_bavail`, `f_bfree` by `count * f_bsize / blocksize`
(unsigned 64-bit multiply, hence reduced mod `2^64`, then truncating
division) and report `blocksize` as `f_bsize`; on host failure return
the negated errno. -/
def loopback_statfs (blocksize : Nat) (host : Except Nat StatfsRec) :
    Except Nat StatfsRec :=
  match host with
  | Except.error e => Except.error e
  | Except.ok s =>
    Except.ok
      { blocks := s.blocks * s.bsize % U64 / blocksize,
        bavail := s.bavail * s.bsize % U64 / blocksize,
        bfree := s.bfree * s.bsize % U64 / blocksize,
        bsize := blocksize }

/-- The fields of the host `struct stat` that `stat_to_attr` copies. -/
structure HostStat where
  ino : Nat := 0
  mode : Nat := 0
  nlink : Nat := 0
  uid : Nat := 0
  gid : Nat := 0
  rdev : Nat := 0
  atime : Int := 0
  mtime : Int := 0
  ctime : Int := 0
  size : Int := 0
  blocks : Int := 0
  blksize : Nat := 0
  flags : Nat := 0
  deriving DecidableEq

/-- The protocol attribute record `struct fuse_darwin_attr`. -/
structure DarwinAttr where
  ino : Nat := 0
  mode : Nat := 0
  nlink : Nat := 0
  uid : Nat := 0
  gid : Nat := 0
  rdev : Nat := 0
  atime : Int := 0
  mtime : Int := 0
  ctime : Int := 0
  size : Int := 0
  blocks : Int := 0
  blksize : Nat := 0
  flags : Nat := 0
  btime : Int := 0
  bkuptime : Int := 0
  deriving DecidableEq

/-- `stat_to_attr`: copies every `struct stat` field — including
`st_blksize` — into the attribute record.  (The C function leaves
`btime`/`bkuptime` untouched; every caller overwrites them immediately
afterwards, here they are passed through the callers below.) -/
def stat_to_attr (s : HostStat) : DarwinAttr :=
  { ino := s.ino, mode := s.mode, nlink := s.nlink, uid := s.uid, gid := s.gid,
    rdev := s.rdev, atime := s.atime, mtime := s.mtime, ctime := s.ctime,
    size := s.size, blocks := s.blocks, blksize := s.blksize, flags := s.flags }

/-- The shared `getattr` helper of `main.c`: `fstat`/`lstat` result as
given by the host (`Except.error e` when it fails with errno `e`),
followed by a best-effort `getattrlist` fetch of creation and backup
time (`none` when that fails, which zero-fills both). -/
def getattr (hostStat : Except Nat HostStat) (hostXtimes : Option (Int × Int)) :
    Except Nat DarwinAttr :=
  match hostStat with
  | Except.error e => Except.error e
  | Except.ok s =>
    match hostXtimes with
    | some (bt, bk) => Except.ok { stat_to_attr s with btime := bt, bkuptime := bk }
    | none => Except.ok { stat_to_attr s with btime := 0, bkuptime := 0 }

/-- `loopback_getattr` (and, identically, the handle-based query):
the shared helper with the I/O block-size hint forced to zero. -/
def loopback_getattr (hostStat : Except Nat HostStat)
    (hostXtimes : Option (Int × Int)) : Except Nat DarwinAttr :=
  match getattr hostStat hostXtimes with
  | Except.error e => Except.error e
  | Except.ok a => Except.ok { a with blksize := 0 }

/-- `getattrat`, the enrichment used by readdir-plus: `fstatat` followed
by the same best-effort `getattrlistat` — note there is no zeroing of
`blksize`. -/
def getattrat (hostStat : Except Nat HostStat) (hostXtimes : Option (Int × Int)) :
    Except Nat DarwinAttr :=
  match hostStat with
  | Except.error e => Except.error e
  | Except.ok s =>
    match hostXtimes with
    | some (bt, bk) => Except.ok { stat_to_attr s with btime := bt, bkuptime := bk }
    | none => Except.ok { stat_to_attr s with btime := 0, bkuptime := 0 }

/-- Concrete host stat for the C6 counterexample and witnesses: a host
file whose preferred I/O size is 4096. -/
def c6stat : HostStat := { ino := 2, mode := 33188, nlink := 1, blksize := 4096 }

/-- The record `loopback_getattr` returns for `c6stat` (blksize forced
to zero). -/
def c6attrA : DarwinAttr :=
  { ino := 2, mode := 33188, nlink := 1, blksize := 0 }

/-- The record `getattrat` returns for `c6stat` (host blksize passed
through). -/
def c6attrB : DarwinAttr :=
  { ino := 2, mode := 33188, nlink := 1, blksize := 4096 }

/-- The fallocate mode bits (from the host's `<sys/vnode.h>`, used by
the macFUSE protocol). -/
def PREALLOCATE : Nat := 1

def ALLOCATECONTIG : Nat := 2

def ALLOCATEALL : Nat := 4

def ALLOCATEFROMPEOF : Nat := 16

def ALLOCATEFROMVOL : Nat := 32

def F_ALLOCATECONTIG : Nat := 2

def F_ALLOCATEALL : Nat := 4

def F_PEOFPOSMODE : Nat := 3

def F_VOLPOSMODE : Nat := 4

/-- `ENOTSUP` on the host platform. -/
def ENOTSUP : Nat := 45

/-- The host preallocation descriptor `fstore_t`.  The C code declares
it on the stack without an initializer and assigns `fst_flags`,
`fst_offset` and `fst_length` unconditionally but `fst_posmode` only
inside the two position-mode branches; `posmode = none` models the
field never having been assigned. -/
structure Fstore where
  flags : Nat
  posmode : Option Nat
  offset : Int
  length : Int
  deriving DecidableEq

/-- `loopback_fallocate`: reject modes without the preallocation bit
with `-ENOTSUP` before any host interaction; otherwise translate the
mode bits into an `fstore_t` and issue a single `fcntl(F_PREALLOCATE)`.
Returns the status and the descriptor passed to the host (`none` when
no host call was made). -/
def loopback_fallocate (mode : Nat) (offset length : Int)
    (host : Fstore → Option Nat) : Int × Option Fstore :=
  if mode &&& PREALLOCATE = 0 then (-(ENOTSUP : Int), none)
  else
    let fl := (if mode &&& ALLOCATECONTIG ≠ 0 then F_ALLOCATECONTIG else 0)
      ||| (if mode &&& ALLOCATEALL ≠ 0 then F_ALLOCATEALL else 0)
    let pm : Option Nat :=
      if mode &&& ALLOCATEFROMPEOF ≠ 0 then some F_PEOFPOSMODE
      else if mode &&& ALLOCATEFROMVOL ≠ 0 then some F_VOLPOSMODE
      else none
    let f : Fstore := ⟨fl, pm, offset, length⟩
    (match host f with
      | some e => -(e : Int)
      | none => 0,
     some f)

lemma readdirLoop_clean (n : Nat) :
    ∀ (k p off : Nat),
      readdirLoop n k ⟨p, none, off⟩ =
        (cleanFinal n p k off, (List.range' p (min k (n - p))).map fun i => (i, i + 2)) := by
  intro k
  induction k with
  | zero =>
    intro p off
    by_cases h : p < n
    · simp [readdirLoop, cleanFinal, h, show p + 0 < n by omega]
    · simp [readdirLoop, cleanFinal, h, show ¬ p + 0 < n by omega]
  | succ k ih =>
    intro p off
    by_cases h : p < n
    · have hrec := ih (p + 1) (p + 2)
      simp only [readdirLoop, if_pos h, hrec]
      rw [Prod.mk.injEq]
      constructor
      · unfold cleanFinal
        split_ifs <;> simp_all [DirSt.mk.injEq] <;> omega
      · rw [show min (k + 1) (n - p) = min k (n - (p + 1)) + 1 by omega,
          List.range'_succ p _ 1]
        simp
    · simp [readdirLoop, h, cleanFinal, show ¬ p + (k + 1) < n by omega,
        show n - p = 0 by omega]

lemma readdirLoop_resume (n k m : Nat) (h : m < n) :
    readdirLoop n k ⟨m + 1, some m, m + 1⟩ = readdirLoop n k ⟨m, none, m + 1⟩ := by
  cases k with
  | zero => simp [readdirLoop, h]
  | succ k => simp [readdirLoop, h]

lemma getLast?_emits (m j : Nat) (hj : 0 < j) :
    (((List.range' m j).map fun i => (i, i + 2)).getLast?) = some (m + j - 1, m + j + 1) := by
  obtain ⟨j', rfl⟩ : ∃ j', j = j' + 1 := ⟨j - 1, by omega⟩
  rw [show List.range' m (j' + 1) = List.range' m j' ++ [m + j'] by
      simpa using @List.range'_concat 1 m j',
    List.map_append]
  simp [List.getLast?_concat]
  omega

lemma lastOffAfter_emits (m j lastOff : Nat) (hj : 0 < j) :
    lastOffAfter ((List.range' m j).map fun i => (i, i + 2)) lastOff = m + j + 1 := by
  unfold lastOffAfter
  rw [getLast?_emits m j hj]

lemma emits_zero (m lastOff : Nat) :
    lastOffAfter ((List.range' m 0).map fun i => (i, i + 2)) lastOff = lastOff := rfl

lemma readdir_call (n m k : Nat) (st : DirSt) (lastOff : Nat) (h : TravInv n m st lastOff) :
    (loopback_readdir n lastOff k st).2
        = ((List.range' m (min k (n - m))).map fun i => (i, i + 2))
    ∧ TravInv n (min (m + k) n) (loopback_readdir n lastOff k st).1
        (lastOffAfter (loopback_readdir n lastOff k st).2 lastOff) := by
  rcases h with ⟨hm, hoff⟩ | ⟨hm1, hmn, hoff, hst⟩
  · subst hm; subst hoff
    unfold loopback_readdir
    rw [show readdirSeek 0 st = ⟨0, none, 0⟩ from by simp [readdirSeek],
      readdirLoop_clean]
    dsimp only
    refine ⟨rfl, ?_⟩
    by_cases hz : min k (n - 0) = 0
    · rw [hz]
      exact Or.inl ⟨by omega, emits_zero 0 0⟩
    · have hj : 0 < min k (n - 0) := by omega
      rw [lastOffAfter_emits 0 _ 0 hj]
      refine Or.inr ⟨by omega, by omega, by omega, ?_⟩
      unfold cleanFinal travSt
      split_ifs <;> simp_all [DirSt.mk.injEq] <;> omega
  · subst hoff
    by_cases hcase : m < n
    · rw [hst]
      unfold loopback_readdir
      rw [show readdirSeek (m + 1) (travSt n m) = travSt n m from by
          simp [readdirSeek, travSt, hcase]]
      rw [show travSt n m = ⟨m + 1, some m, m + 1⟩ from by simp [travSt, hcase],
        readdirLoop_resume n k m hcase, readdirLoop_clean]
      dsimp only
      refine ⟨rfl, ?_⟩
      by_cases hz : min k (n - m) = 0
      · rw [hz]
        refine Or.inr ⟨by omega, by omega, ?_, ?_⟩
        · rw [emits_zero]; omega
        · unfold cleanFinal travSt
          split_ifs <;> simp_all [DirSt.mk.injEq] <;> omega
      · have hj : 0 < min k (n - m) := by omega
        rw [lastOffAfter_emits m _ (m + 1) hj]
        refine Or.inr ⟨by omega, by omega, by omega, ?_⟩
        unfold cleanFinal travSt
        split_ifs <;> simp_all [DirSt.mk.injEq] <;> omega
    · have hmeq : m = n := by omega
      subst hmeq
      rw [hst]
      unfold loopback_readdir
      rw [show readdirSeek (m + 1) (travSt m m) = travSt m m from by
          simp [readdirSeek, travSt]]
      rw [show travSt m m = ⟨m, none, m + 1⟩ from by simp [travSt], readdirLoop_clean]
      dsimp only
      refine ⟨rfl, ?_⟩
      rw [show min k (m - m) = 0 from by omega]
      refine Or.inr ⟨by omega, by omega, ?_, ?_⟩
      · rw [emits_zero]; omega
      · unfold cleanFinal travSt
        split_ifs <;> simp_all [DirSt.mk.injEq] <;> omega

lemma runTraversal_inv (n : Nat) :
    ∀ (ks : List Nat) (m : Nat) (st : DirSt) (lastOff : Nat), TravInv n m st lastOff →
      (runTraversal n ks st lastOff).map Prod.fst = List.range' m (min ks.sum (n - m)) := by
  intro ks
  induction ks with
  | nil =>
    intro m st lastOff _
    simp [runTraversal]
  | cons k ks ih =>
    intro m st lastOff h
    have hmn : m ≤ n := by
      rcases h with ⟨h0, _⟩ | ⟨_, hmn, _, _⟩ <;> omega
    obtain ⟨hemit, hinv⟩ := readdir_call n m k st lastOff h
    have hrest := ih (min (m + k) n) (loopback_readdir n lastOff k st).1
      (lastOffAfter (loopback_readdir n lastOff k st).2 lastOff) hinv
    simp only [runTraversal]
    rw [List.map_append, hrest, hemit, List.map_map,
      show (Prod.fst ∘ fun i : Nat => (i, i + 2)) = id from rfl, List.map_id,
      List.sum_cons]
    rw [show min (m + k) n = m + 1 * min k (n - m) from by omega, List.range'_append]
    congr 1
    omega

/-- C2: over an unchanged directory with `n` entries, a traversal split
into `loopback_readdir` calls with arbitrary filler budgets `ks` (of total
at least `n`), starting from the fresh `opendir` state and each time
resuming from the offset returned with the last emitted entry, emits
exactly the entries `0, …, n-1` — every entry exactly once, never
duplicated and never skipped, in the single stream order — independent of
how the calls split the work. -/
theorem readdir_traversal_exactly_once (n : Nat) (ks : List Nat) (h : n ≤ ks.sum) :
    (runTraversal n ks opendirSt 0).map Prod.fst = List.range n := by
  rw [runTraversal_inv n ks 0 opendirSt 0 (Or.inl ⟨rfl, rfl⟩), List.range_eq_range']
  congr 1
  omega

theorem readdir_traversal_exactly_once_witness :
    2 ≤ ([1, 1] : List Nat).sum ∧
      (runTraversal 2 [1, 1] opendirSt 0).map Prod.fst = List.range 2 :=
  ⟨by decide, readdir_traversal_exactly_once 2 [1, 1] (by decide)⟩

/-- C5: offset invariants of the enumerator. (1) Every (entry, offset)
pair the fill loop emits from a clean state reports offset `i + 2` for
entry `i` — the host cursor position after reading that entry (`i + 1`)
plus one — and hence never offset 0. (2) Resume offset 0 always rewinds:
the first emitted entry is entry 0 (with offset 2) whatever the prior
cursor state, including after exhaustion. (3) Any nonzero resume offset
`o` differing from the stream's recorded offset seeks the host cursor to
`o - 1` and clears the buffered entry. -/
theorem readdir_offset_invariants :
    (∀ (n k p off : Nat) (pr : Nat × Nat),
        pr ∈ (readdirLoop n k ⟨p, none, off⟩).2 → pr.2 = pr.1 + 2 ∧ 0 < pr.2)
    ∧ (∀ (n k : Nat) (st : DirSt), 0 < n → 0 < k →
        ((loopback_readdir n 0 k st).2).head? = some (0, 2))
    ∧ (∀ (o : Nat) (st : DirSt), o ≠ 0 → o ≠ st.offset →
        readdirSeek o st = ⟨o - 1, none, o⟩) := by
  refine ⟨?_, ?_, ?_⟩
  · intro n k p off pr hpr
    rw [readdirLoop_clean] at hpr
    dsimp only at hpr
    rcases List.mem_map.1 hpr with ⟨i, _, rfl⟩
    exact ⟨rfl, by omega⟩
  · intro n k st hn hk
    unfold loopback_readdir
    rw [show readdirSeek 0 st = ⟨0, none, 0⟩ from by simp [readdirSeek],
      readdirLoop_clean]
    dsimp only
    rw [show min k (n - 0) = (min k (n - 0) - 1) + 1 from by omega,
      List.range'_succ 0 _ 1]
    rfl
  · intro o st ho hne
    simp [readdirSeek, ho, hne]

theorem readdir_offset_invariants_witness :
    ((2 : Nat) = 0 + 2 ∧ 0 < 2)
    ∧ ((loopback_readdir 1 0 1 opendirSt).2).head? = some (0, 2)
    ∧ readdirSeek 5 opendirSt = ⟨4, none, 5⟩ :=
  ⟨readdir_offset_invariants.1 1 1 0 0 (0, 2) (by decide),
   readdir_offset_invariants.2.1 1 1 opendirSt (by decide) (by decide),
   readdir_offset_invariants.2.2 5 opendirSt (by decide) (by decide)⟩

/-- C7 (counterexample): with two entries and a filler that rejects
immediately, `loopback_readdir` from the fresh state returns with the
rejected first entry still buffered (`d->entry` = entry 0) and
`d->offset` still 0 — not, as the claim states, with the buffered
reference discarded and the rejected entry's `nextOffset` (= 2)
recorded as the stream's last-known offset. -/
theorem readdir_stop_state_counterexample :
    (loopback_readdir 2 0 0 opendirSt).1.entry = some 0
    ∧ (loopback_readdir 2 0 0 opendirSt).1.offset = 0
    ∧ ¬((loopback_readdir 2 0 0 opendirSt).1.entry = none
        ∧ (loopback_readdir 2 0 0 opendirSt).1.offset = 2) := by
  decide

/-- C7 (amended): when the filler signals Stop while entries remain
(`p + k < n` from a clean start at `p` with budget `k`), the
implementation returns keeping the rejected entry `p + k` buffered in
`d->entry`, and `d->offset` still holds the offset recorded with the
last accepted entry (the incoming value if no entry was accepted) — the
buffered reference is not discarded and the rejected entry's
`nextOffset` is not recorded. -/
theorem readdir_stop_keeps_buffered_entry (n k p off : Nat) (h : p + k < n) :
    (readdirLoop n k ⟨p, none, off⟩).1.entry = some (p + k)
    ∧ (readdirLoop n k ⟨p, none, off⟩).1.offset = (if k = 0 then off else p + k + 1) := by
  rw [readdirLoop_clean]
  dsimp only
  unfold cleanFinal
  rw [if_pos h]
  exact ⟨rfl, rfl⟩

theorem readdir_stop_keeps_buffered_entry_witness :
    (0 + 1 < 3)
    ∧ ((readdirLoop 3 1 ⟨0, none, 0⟩).1.entry = some (0 + 1)
      ∧ (readdirLoop 3 1 ⟨0, none, 0⟩).1.offset = (if 1 = 0 then 0 else 0 + 1 + 1)) :=
  ⟨by decide, readdir_stop_keeps_buffered_entry 3 1 0 0 (by decide)⟩

lemma attempt_eq_runCalls (host : HostCall → Option Nat) (cond : Bool) (c : HostCall)
    (k : Unit → Int × List HostCall) (rest : List HostCall)
    (hk : k () = runCalls host rest) :
    attempt host cond c k = runCalls host ((if cond then [c] else []) ++ rest) := by
  cases cond
  · simpa [attempt] using hk
  · cases hc : host c <;> simp [attempt, runCalls, hc, hk]

lemma attempt_eq_runCalls_last (host : HostCall → Option Nat) (cond : Bool) (c : HostCall) :
    attempt host cond c (fun _ => (0, [])) = runCalls host (if cond then [c] else []) := by
  cases cond
  · simp [attempt, runCalls]
  · cases hc : host c <;> simp [attempt, runCalls, hc]

lemma loopback_setattr_eq (host : HostCall → Option Nat) (now : Nat) (r : SetAttrReq) :
    loopback_setattr host now r = runCalls host (claimOrderCalls now r) := by
  unfold loopback_setattr claimOrderCalls
  refine attempt_eq_runCalls _ _ _ _ _ ?_
  refine attempt_eq_runCalls _ _ _ _ _ ?_
  refine attempt_eq_runCalls _ _ _ _ _ ?_
  refine attempt_eq_runCalls _ _ _ _ _ ?_
  refine attempt_eq_runCalls _ _ _ _ _ ?_
  refine attempt_eq_runCalls _ _ _ _ _ ?_
  refine attempt_eq_runCalls _ _ _ _ _ ?_
  exact attempt_eq_runCalls_last _ _ _

lemma loopback_setattr_x_eq (host : HostCall → Option Nat) (now : Nat) (r : SetAttrReq) :
    loopback_setattr_x host now r = runCalls host (fuse2OrderCalls now r) := by
  unfold loopback_setattr_x fuse2OrderCalls
  refine attempt_eq_runCalls _ _ _ _ _ ?_
  refine attempt_eq_runCalls _ _ _ _ _ ?_
  refine attempt_eq_runCalls _ _ _ _ _ ?_
  refine attempt_eq_runCalls _ _ _ _ _ ?_
  refine attempt_eq_runCalls _ _ _ _ _ ?_
  refine attempt_eq_runCalls _ _ _ _ _ ?_
  refine attempt_eq_runCalls _ _ _ _ _ ?_
  exact attempt_eq_runCalls_last _ _ _

lemma runCalls_mem (host : HostCall → Option Nat) :
    ∀ (cs : List HostCall) (c : HostCall), c ∈ (runCalls host cs).2 → c ∈ cs := by
  intro cs
  induction cs with
  | nil => intro c hc; simp [runCalls] at hc
  | cons d cs ih =>
    intro c hc
    unfold runCalls at hc
    cases hd : host d with
    | some e =>
      rw [hd] at hc
      simp at hc
      simp [hc]
    | none =>
      rw [hd] at hc
      simp at hc
      rcases hc with rfl | hc
      · exact List.mem_cons_self _ _
      · exact List.mem_cons_of_mem _ (ih c hc)

lemma runCalls_head_mem (host : HostCall → Option Nat) (c : HostCall) (cs : List HostCall) :
    c ∈ (runCalls host (c :: cs)).2 := by
  unfold runCalls
  cases hc : host c <;> simp

lemma mem_if_singleton {α : Type} {b : Bool} {x c : α} :
    x ∈ (if b then [c] else []) ↔ b = true ∧ x = c := by
  cases b <;> simp

/-- C1 (evaluation at the failing input): storing the reserved-prefix
name `com.apple.test` with value `[1, 2, 3]` into an empty store makes
the host store it under `org.apple.test`; the subsequent listing shows
`org.apple.test` — not the caller's name `com.apple.test` — because the
listing rewrite tests for the *reserved* prefix and writes the
*alternate* one instead of mapping the alternate prefix back; the fetch
under the original name does return the unchanged value. -/
theorem xattr_list_shows_alternate_name :
    loopback_listxattr (loopback_setxattr [] c1name [1, 2, 3]) = [c1orgname]
    ∧ c1name ∉ loopback_listxattr (loopback_setxattr [] c1name [1, 2, 3])
    ∧ loopback_getxattr (loopback_setxattr [] c1name [1, 2, 3]) c1name = some [1, 2, 3] := by
  decide

/-- C3 (counterexample): with change-time and creation-time both
requested and a host failing the creation-time call with errno 5 and the
change-time call with errno 13, the FUSE 2.x setter `loopback_setattr_x`
returns `-5` (it applies creation-time first), while the claimed fixed
order — change-time before creation-time — would return `-13`. -/
theorem setattr_order_counterexample :
    (loopback_setattr_x c3host 0 c3req).1 = -5
    ∧ (runCalls c3host (claimOrderCalls 0 c3req)).1 = -13
    ∧ (loopback_setattr_x c3host 0 c3req).1 ≠ (runCalls c3host (claimOrderCalls 0 c3req)).1 := by
  decide

/-- C3 (amended): each variant applies its present fields in its own
fixed order, stops at the first field whose host call fails, returns
that failure's negated errno, and does not undo already-applied fields
(`runCalls` keeps every issued call in its trace).  The libfuse3 setter
follows the claimed order — mode; ownership; size; modify/access time;
change-time; creation-time; backup-time; flags — while the FUSE 2.x
setter applies creation-time *before* change-time.  (The ownership step
is one combined `chown`, skipped when both effective ids are the `-1`
sentinel; see C9.) -/
theorem setattr_fixed_order_amended :
    (∀ (host : HostCall → Option Nat) (now : Nat) (r : SetAttrReq),
        loopback_setattr host now r = runCalls host (claimOrderCalls now r))
    ∧ (∀ (host : HostCall → Option Nat) (now : Nat) (r : SetAttrReq),
        loopback_setattr_x host now r = runCalls host (fuse2OrderCalls now r)) :=
  ⟨loopback_setattr_eq, loopback_setattr_x_eq⟩

/-- C9: a requested owner id equal to the all-ones sentinel
`(uid_t)-1 = 4294967295` is indistinguishable from the field being
absent: both variants behave identically with the uid bit cleared; if
the effective gid is also the sentinel (absent or itself `-1`) no
`chown` is issued at all (so the request silently does nothing for the
field and, absent other failures, reports success); if only the gid is
real, the single `chown` passes the sentinel as the uid, telling the
host to leave it unchanged. -/
theorem setattr_uid_sentinel (host : HostCall → Option Nat) (now : Nat) (r : SetAttrReq)
    (h1 : r.uidSet = true) (h2 : r.uid = UMAX) :
    (loopback_setattr host now r = loopback_setattr host now { r with uidSet := false }
      ∧ loopback_setattr_x host now r = loopback_setattr_x host now { r with uidSet := false })
    ∧ ((r.gidSet = false ∨ r.gid = UMAX) →
        ∀ (u g : Nat), HostCall.chown u g ∉ (loopback_setattr host now r).2)
    ∧ (r.modeSet = false → r.gidSet = true → r.gid ≠ UMAX →
        HostCall.chown UMAX r.gid ∈ (loopback_setattr host now r).2) := by
  have hu : effUid r = UMAX := by simp [effUid, h1, h2]
  have hu' : effUid { r with uidSet := false } = UMAX := by simp [effUid]
  refine ⟨⟨?_, ?_⟩, ?_, ?_⟩
  · simp [loopback_setattr, effUid, effGid, h1, h2]
  · simp [loopback_setattr_x, effUid, effGid, h1, h2]
  · intro hg u g hx
    rw [loopback_setattr_eq] at hx
    have hmem := runCalls_mem host _ _ hx
    have hgE : effGid r = UMAX := by
      rcases hg with hg | hg
      · simp [effGid, hg]
      · simp [effGid, hg]
    simp [claimOrderCalls, hu, hgE, mem_if_singleton] at hmem
  · intro hm hg hgne
    rw [loopback_setattr_eq]
    have hgE : effGid r = r.gid := by simp [effGid, hg]
    have hcond : (r.gid != UMAX) = true := by simpa [bne_iff_ne] using hgne
    have hlist : claimOrderCalls now r
        = HostCall.chown UMAX r.gid
          :: ((if r.sizeSet then [HostCall.truncate r.size] else [])
            ++ (if r.mtimeSet
                then [HostCall.utimes (if r.atimeSet then r.atime else now) r.mtime]
                else [])
            ++ (if r.ctimeSet then [HostCall.setchgtime r.ctime] else [])
            ++ (if r.crtimeSet then [HostCall.setcrtime r.crtime] else [])
            ++ (if r.bkuptimeSet then [HostCall.setbkuptime r.bkuptime] else [])
            ++ (if r.flagsSet then [HostCall.chflags r.flags] else [])) := by
      simp [claimOrderCalls, hm, hu, hgE, hcond]
    rw [hlist]
    exact runCalls_head_mem host _ _

theorem setattr_uid_sentinel_witness :
    loopback_setattr (fun _ => none) 0 c9req
        = loopback_setattr (fun _ => none) 0 { c9req with uidSet := false }
    ∧ HostCall.chown UMAX UMAX ∉ (loopback_setattr (fun _ => none) 0 c9req).2 :=
  ⟨(setattr_uid_sentinel (fun _ => none) 0 c9req rfl rfl).1.1,
   (setattr_uid_sentinel (fun _ => none) 0 c9req rfl rfl).2.1 (Or.inl rfl) UMAX UMAX⟩

/-- C4 (counterexample): with logical block size 4096 and a host report
of `2^60` blocks of 16 bytes each, the unsigned 64-bit product wraps to
0, the rescaled total is 0 blocks, and `0 * 4096` differs from
`2^60 * 16` by far more than one logical block. -/
theorem statfs_overflow_counterexample :
    loopback_statfs 4096
        (Except.ok { bsize := 16, blocks := 2 ^ 60, bfree := 0, bavail := 0 })
      = Except.ok { bsize := 4096, blocks := 0, bfree := 0, bavail := 0 }
    ∧ ¬((2 : Nat) ^ 60 * 16 - 0 * 4096 < 4096) :=
  ⟨rfl, by decide⟩

/-- C4 (amended): for a positive logical block size `L` and any host
statistics whose byte total `blocks * bsize` fits in 64 bits (no
`uint64` wrap), `loopback_statfs` returns the truncated rescale
`blocks * bsize / L` as the block count, reports `L` as the block size,
and the rescaled count times `L` is within one logical block below the
host byte total. -/
theorem statfs_rescale_amended (L : Nat) (s : StatfsRec) (hL : 0 < L)
    (hov : s.blocks * s.bsize < U64) :
    ∃ r, loopback_statfs L (Except.ok s) = Except.ok r
      ∧ r.blocks = s.blocks * s.bsize / L
      ∧ r.bsize = L
      ∧ r.blocks * L ≤ s.blocks * s.bsize
      ∧ s.blocks * s.bsize - r.blocks * L < L := by
  have hmodeq : s.blocks * s.bsize % U64 = s.blocks * s.bsize := Nat.mod_eq_of_lt hov
  refine ⟨_, rfl, ?_, rfl, ?_, ?_⟩
  · show s.blocks * s.bsize % U64 / L = s.blocks * s.bsize / L
    rw [hmodeq]
  · show s.blocks * s.bsize % U64 / L * L ≤ s.blocks * s.bsize
    rw [hmodeq]
    exact Nat.div_mul_le_self _ _
  · show s.blocks * s.bsize - s.blocks * s.bsize % U64 / L * L < L
    rw [hmodeq]
    have key : ∀ (x p : Nat), p + x = s.blocks * s.bsize → x < L →
        s.blocks * s.bsize - p < L := by
      intro x p hp1 hp2
      omega
    exact key (s.blocks * s.bsize % L) (s.blocks * s.bsize / L * L)
      (by rw [Nat.mul_comm]; exact Nat.div_add_mod (s.blocks * s.bsize) L)
      (Nat.mod_lt _ hL)

theorem statfs_rescale_amended_witness :
    0 < 4096 ∧ (1000 : Nat) * 512 < U64
    ∧ ∃ r, loopback_statfs 4096
          (Except.ok { bsize := 512, blocks := 1000, bfree := 0, bavail := 0 })
        = Except.ok r
      ∧ r.blocks = 1000 * 512 / 4096
      ∧ r.bsize = 4096
      ∧ r.blocks * 4096 ≤ 1000 * 512
      ∧ 1000 * 512 - r.blocks * 4096 < 4096 :=
  ⟨by decide, by decide,
   statfs_rescale_amended 4096 { bsize := 512, blocks := 1000, bfree := 0, bavail := 0 }
     (by decide) (by decide)⟩

/-- C6 (counterexample): the readdir-plus enrichment `getattrat` returns
the host's `st_blksize` (4096 for `c6stat`) unmodified, not zero, and
`loopback_readdir` passes that record to the filler as is. -/
theorem readdirplus_blksize_counterexample :
    getattrat (Except.ok c6stat) none = Except.ok c6attrB
    ∧ c6attrB.blksize = 4096
    ∧ ¬ c6attrB.blksize = 0 :=
  ⟨rfl, rfl, by decide⟩

/-- C6 (amended): the path- and handle-based attribute queries
(`loopback_getattr`) force the I/O block-size hint to zero, but the
attribute enrichment of extended ("plus") directory entries
(`getattrat`, whose result the enumerator forwards unmodified) reports
the host `st_blksize` unchanged. -/
theorem blksize_zero_amended :
    (∀ (hs : Except Nat HostStat) (hx : Option (Int × Int)) (a : DarwinAttr),
        loopback_getattr hs hx = Except.ok a → a.blksize = 0)
    ∧ (∀ (s : HostStat) (hx : Option (Int × Int)) (a : DarwinAttr),
        getattrat (Except.ok s) hx = Except.ok a → a.blksize = s.blksize) := by
  constructor
  · intro hs hx a ha
    unfold loopback_getattr at ha
    cases hg : getattr hs hx with
    | error e =>
      rw [hg] at ha
      simp at ha
    | ok b =>
      rw [hg] at ha
      simp at ha
      subst ha
      rfl
  · intro s hx a ha
    cases hx with
    | none =>
      simp [getattrat] at ha
      subst ha
      rfl
    | some p =>
      obtain ⟨bt, bk⟩ := p
      simp [getattrat] at ha
      subst ha
      rfl

theorem blksize_zero_amended_witness :
    c6attrA.blksize = 0 ∧ c6attrB.blksize = c6stat.blksize :=
  ⟨blksize_zero_amended.1 (Except.ok c6stat) none c6attrA rfl,
   blksize_zero_amended.2 c6stat none c6attrB rfl⟩

/-- C8: a mode without the preallocation bit is rejected with
`-ENOTSUP` and no host call is issued, regardless of which other mode
bits are set and of offset and length. -/
theorem fallocate_requires_preallocate (mode : Nat) (h : mode &&& PREALLOCATE = 0) :
    ∀ (off len : Int) (host : Fstore → Option Nat),
      loopback_fallocate mode off len host = (-(ENOTSUP : Int), none) := by
  intro off len host
  unfold loopback_fallocate
  rw [if_pos h]

theorem fallocate_requires_preallocate_witness :
    (54 &&& PREALLOCATE = 0)
    ∧ loopback_fallocate 54 3 5 (fun _ => none) = (-(ENOTSUP : Int), none) :=
  ⟨by decide, fallocate_requires_preallocate 54 (by decide) 3 5 (fun _ => none)⟩

/-- C10: when the preallocation bit is set but neither the
from-current-end-of-file bit nor the from-volume-start bit is, the
descriptor handed to `fcntl(F_PREALLOCATE)` has its `fst_posmode` field
never assigned (modelled as `none`): the host call is issued with the
field uninitialized. -/
theorem fallocate_posmode_uninitialized (mode : Nat) (hp : mode &&& PREALLOCATE ≠ 0)
    (h1 : mode &&& ALLOCATEFROMPEOF = 0) (h2 : mode &&& ALLOCATEFROMVOL = 0) :
    ∀ (off len : Int) (host : Fstore → Option Nat),
      ∃ f, (loopback_fallocate mode off len host).2 = some f ∧ f.posmode = none := by
  intro off len host
  unfold loopback_fallocate
  rw [if_neg hp]
  dsimp only
  rw [if_neg (show ¬ mode &&& ALLOCATEFROMPEOF ≠ 0 by simp [h1]),
    if_neg (show ¬ mode &&& ALLOCATEFROMVOL ≠ 0 by simp [h2])]
  exact ⟨_, rfl, rfl⟩

theorem fallocate_posmode_uninitialized_witness :
    (7 &&& PREALLOCATE ≠ 0) ∧ (7 &&& ALLOCATEFROMPEOF = 0) ∧ (7 &&& ALLOCATEFROMVOL = 0)
    ∧ ∃ f, (loopback_fallocate 7 3 5 (fun _ => none)).2 = some f ∧ f.posmode = none :=
  ⟨by decide, by decide, by decide,
   fallocate_posmode_uninitialized 7 (by decide) (by decide) (by decide) 3 5 (fun _ => none)⟩
